import Mathlib

/-
Verification development for the kv-storage repository: an async key/value
storage area (KVStorageArea) layered on an IndexedDB-style engine.

The development embeds the source at three levels:

1. A settlement algebra for promises (a settled promise is an
   `Except ε α`): used for the clear ordering and outcome (src/src/KVStorageArea.ts,
   clear, lines 169-188) and for the transaction terminal events attached in
   set and delete (lines 65-78 and 144-157).

2. A trace model of the database-promise cache
   (src/unnamed/part_000, performADatabaseOperation, lines 17-23,
   together with the open behaviour of initializeTheDatabasePromise,
   which is referenced there but not part of the repository and is
   therefore modelled from the spec).

3. A sequential functional semantics of the whole class
   (constructor, set, get, delete, clear, backingStore) over an explicit
   area-plus-engine state, in which each operation runs to completion
   before the next starts and opens succeed (the failure cases live in
   levels 1 and 2).
-/

namespace KVStorage

/-! ## Level 1: settled promises -/

/-- Embedding of ECMAScript `Promise.prototype.finally` on settled
promises, with a callback whose result is itself a settled promise: the
result keeps the settlement of `p`, except that a rejection produced by
the callback takes over.  In particular a rejected `p` stays rejected
even when the callback succeeds. -/
def jsFinally {ε α β : Type} (p : Except ε α) (cb : Unit → Except ε β) : Except ε α :=
  match cb () with
  | Except.ok _ => p
  | Except.error e => Except.error e

/-- The combinator the inline steps of `clear` describe (step 2 of
src/src/KVStorageArea.ts lines 173-181): reacting to a promise with
fulfillment AND rejection handlers that both run the same steps and
return the result of those steps.  Unlike `jsFinally`, the settlement of
`p` is discarded entirely. -/
def reactWithBothHandlers {ε α β : Type} (_p : Except ε α) (f : Unit → Except ε β) :
    Except ε β :=
  f ()

/-- Observable actions of one `clear` invocation, in issue order. -/
inductive ClearAction where
  | waitSettle
  | invalidate
  | destroyStore
deriving DecidableEq

/-- The body of the callback `clear` hands to `.finally`
(src/src/KVStorageArea.ts lines 175-181): set the cached database promise
to null, then issue the database deletion. -/
def clearCallbackTrace : List ClearAction :=
  [ClearAction.invalidate, ClearAction.destroyStore]

/-- Action trace of `clear` (src/src/KVStorageArea.ts lines 169-188).
When the handle cache holds a future (pending or settled), `.finally`
runs its callback only once that future has settled, so the trace is the
settle wait followed by the callback body; when the cache is null, the
deletion is issued directly. -/
def clearActionTrace {ε : Type} (cache : Option (Except ε Unit)) : List ClearAction :=
  match cache with
  | some _ => ClearAction.waitSettle :: clearCallbackTrace
  | none => [ClearAction.destroyStore]

/-- Settlement-level result of `clear` (src/src/KVStorageArea.ts lines
169-188): the new cache contents and the settlement of the promise clear
returns.  `cache` is the eventual settlement of the cached open future
(if one is cached) and `destroyR` the settlement of the database
deletion.  The source composes them with `.finally`. -/
def clearSettled {ε : Type} (cache : Option (Except ε Unit)) (destroyR : Except ε Unit) :
    Option (Except ε Unit) × Except ε Unit :=
  match cache with
  | some f => (none, jsFinally f (fun _ => destroyR))
  | none => (none, destroyR)

/-- The same composition following the words of the inline spec steps of
`clear` (react to the cached promise with fulfillment and rejection
handlers that both invalidate and then return the deletion result),
for comparison with `clearSettled`. -/
def clearSettledSpec {ε : Type} (cache : Option (Except ε Unit)) (destroyR : Except ε Unit) :
    Option (Except ε Unit) × Except ε Unit :=
  match cache with
  | some f => (none, reactWithBothHandlers f (fun _ => destroyR))
  | none => (none, destroyR)

/-! ## Level 1: transaction terminal events for the write path -/

/-- Terminal events an IDBTransaction can fire. -/
inductive TxnEvent where
  | complete
  | error
  | abort
deriving DecidableEq

/-- How the listeners that `set` (src/src/KVStorageArea.ts lines 65-78)
and `delete` (lines 144-157) attach settle the returned promise on one
terminal event: resolve with undefined on complete, reject with the
transaction error on error and on abort alike.  `txErr` is the value of
`transaction.error`. -/
def txnSettle {ε : Type} (txErr : ε) : TxnEvent → Except ε Unit
  | TxnEvent.complete => Except.ok ()
  | TxnEvent.error => Except.error txErr
  | TxnEvent.abort => Except.error txErr

/-- A promise is a single-assignment cell: resolving or rejecting an
already settled promise is a no-op. -/
def settleOnce {ε : Type} (cell : Option (Except ε Unit)) (r : Except ε Unit) :
    Option (Except ε Unit) :=
  match cell with
  | some _ => cell
  | none => some r

/-- Deliver a sequence of terminal events to the write-path listeners of
`set` / `delete`; the promise cell starts unsettled and each event tries
to settle it. -/
def runTxnListenerEvents {ε : Type} (txErr : ε) (evs : List TxnEvent) :
    Option (Except ε Unit) :=
  evs.foldl (fun cell e => settleOnce cell (txnSettle txErr e)) none

/-! ## Level 2: trace model of the database-promise cache

Models the interleaving of get/set/delete arrivals with open settlements
on one area.  Promises are identified by numbers; the cache holds the id
of the cached open promise and `pending` lists the ids of open attempts
that have been started against the engine but have not settled yet. -/

namespace OpenModel

/-- Cache state of one area: `cache` is [[DatabasePromise]] (none =
null), `pending` the open attempts currently in flight, `nextId` a fresh
promise id. -/
structure St where
  cache : Option Nat
  pending : List Nat
  nextId : Nat
deriving DecidableEq

/-- Scheduler events: a get/set/delete call arrives and runs the
synchronous part of performADatabaseOperation (src/unnamed/part_000
lines 17-23); an in-flight open attempt settles successfully; an
in-flight open attempt fails. -/
inductive Ev where
  | arrive
  | settleOk (i : Nat)
  | settleFail (i : Nat)
deriving DecidableEq

/-- Constructor state: [[DatabasePromise]] is null and no open is in
flight (src/src/KVStorageArea.ts line 28). -/
def init : St :=
  { cache := none, pending := [], nextId := 0 }

/-- One event.  On arrival, performADatabaseOperation starts a new open
only when the cached promise is null (src/unnamed/part_000 lines 17-20)
and returns the cached promise to the caller either way (line 23); the
returned `Option Nat` is the promise id the caller receives.  On
settlement the attempt leaves `pending`; a FAILED open also resets the
cache to null so that later callers retry.  That reset lives in
initializeTheDatabasePromise, which performADatabaseOperation references
but which is not part of the repository; it is modelled from the spec
(on open failure, clear the cached future so the next caller retries
rather than replaying the failure). -/
def step (s : St) : Ev → St × Option Nat
  | Ev.arrive =>
    match s.cache with
    | some p => (s, some p)
    | none =>
      ({ cache := some s.nextId, pending := s.nextId :: s.pending, nextId := s.nextId + 1 },
       some s.nextId)
  | Ev.settleOk i =>
    if i ∈ s.pending then
      ({ s with pending := s.pending.erase i }, none)
    else (s, none)
  | Ev.settleFail i =>
    if i ∈ s.pending then
      ({ cache := if s.cache = some i then none else s.cache,
         pending := s.pending.erase i, nextId := s.nextId }, none)
    else (s, none)

/-- Run a sequence of events from the constructor state. -/
def run (evs : List Ev) : St :=
  evs.foldl (fun s e => (step s e).1) init

/-- Cache invariant: every in-flight open attempt is the cached promise,
and attempts are pairwise distinct. -/
def inv (s : St) : Prop :=
  (∀ j ∈ s.pending, s.cache = some j) ∧ s.pending.Nodup

end OpenModel

/-! ## Level 3: sequential functional semantics of KVStorageArea -/

/-- Keys, abstracted.  Modelled from the spec: key validity is delegated
to the storage engine key-type contract; the model keeps only the
verdict, with an infinite supply of valid and of invalid keys. -/
inductive Key where
  | validKey (n : Nat)
  | invalidKey (n : Nat)
deriving DecidableEq

/-- Modelled from the spec: `allowedAsAKey`, the pure key-validity
predicate called by get and delete (and named by the comment in set), is
not part of the repository. -/
def allowedAsAKey : Key → Bool
  | Key.validKey _ => true
  | Key.invalidKey _ => false

/-- Engine-side state for the one database an area names: its object
store table plus instrumentation counters (opens started, transactions
created, database deletions issued).  Modelled from the spec: the engine
(IndexedDB) is an external collaborator. -/
structure EngineState (V : Type) where
  table : List (Key × V)
  openCount : Nat
  txnCount : Nat
  destroyCount : Nat
deriving DecidableEq

/-- The frozen [[BackingStoreObject]] value built by the backingStore
getter (src/src/KVStorageArea.ts lines 195-202).  Its `database` field
copies [[DatabaseName]], which a WeakMap lookup surfaces as an optional
string. -/
structure BackingStoreObj where
  database : Option String
  store : String
  version : Nat
deriving DecidableEq

/-- State of one KVStorageArea: the three internal slots
([[DatabaseName]], [[DatabasePromise]], [[BackingStoreObject]]) together
with the engine state of its database.  The source keeps the slots in
module-level WeakMaps and (in the backingStore getter) in same-named
private fields; both embed as these record fields.  In this sequential
model the cached promise is always settled between operations and opens
succeed, so [[DatabasePromise]] carries no payload. -/
structure AreaState (V : Type) where
  databaseName : Option String
  databasePromise : Option Unit
  backingStoreObject : Option BackingStoreObj
  engine : EngineState V
deriving DecidableEq

/-- Outcome of one operation in the sequential happy-path model:
fulfilled with a value-or-undefined, or rejected with a DataError
DOMException. -/
inductive OpOutcome (V : Type) where
  | fulfilled (v : Option V)
  | rejectedDataError
deriving DecidableEq

/-- Modelled from the spec: IDBObjectStore put with an explicit key
replaces any entry under that key. -/
def storePut {V : Type} (t : List (Key × V)) (k : Key) (v : V) : List (Key × V) :=
  (k, v) :: t.filter (fun e => e.1 != k)

/-- Modelled from the spec: IDBObjectStore delete removes the entry
under the key, if any. -/
def storeDelete {V : Type} (t : List (Key × V)) (k : Key) : List (Key × V) :=
  t.filter (fun e => e.1 != k)

/-- Modelled from the spec: IDBObjectStore get returns the stored value
or undefined when no entry exists. -/
def storeGet {V : Type} (t : List (Key × V)) (k : Key) : Option V :=
  (t.find? (fun e => e.1 == k)).map (fun e => e.2)

/-- The condition asserted at the top of performADatabaseOperation
(src/unnamed/part_000 lines 11-15): [[DatabaseName]] is a string, in
particular not null/undefined. -/
def databaseNameAssertion {V : Type} (s : AreaState V) : Bool :=
  s.databaseName.isSome

/-- Modelled from the spec: initializeTheDatabasePromise is referenced
by performADatabaseOperation but absent from the repository; it sets
[[DatabasePromise]] to a promise that opens the named database.  In this
sequential happy-path model the open succeeds immediately, so it caches
a resolved promise and counts one open against the engine. -/
def initializeTheDatabasePromise {V : Type} (s : AreaState V) : AreaState V :=
  { s with databasePromise := some (),
           engine := { s.engine with openCount := s.engine.openCount + 1 } }

/-- performADatabaseOperation (src/unnamed/part_000): if
[[DatabasePromise]] is null, initialize it; then, on the opened
database, create a transaction on the "store" object store (counted by
`txnCount`) and run the given steps against the store, returning their
outcome. -/
def performADatabaseOperation {V : Type} (s : AreaState V)
    (steps : List (Key × V) → List (Key × V) × OpOutcome V) :
    AreaState V × OpOutcome V :=
  let s1 := if s.databasePromise.isNone then initializeTheDatabasePromise s else s
  let s2 := { s1 with engine := { s1.engine with txnCount := s1.engine.txnCount + 1 } }
  let r := steps s2.engine.table
  ({ s2 with engine := { s2.engine with table := r.1 } }, r.2)

namespace KVStorageArea

/-- The constructor (src/src/KVStorageArea.ts lines 23-32): set
[[DatabaseName]] to "kv-storage:" ++ name, [[DatabasePromise]] to null,
[[BackingStoreObject]] to null; the engine starts empty and untouched. -/
def construct (V : Type) (name : String) : AreaState V :=
  { databaseName := some ("kv-storage:" ++ name),
    databasePromise := none,
    backingStoreObject := none,
    engine := { table := [], openCount := 0, txnCount := 0, destroyCount := 0 } }

/-- set (src/src/KVStorageArea.ts lines 43-81).  The key-validity check
of step 1 is present in the source only as a comment, so the method goes
straight to performADatabaseOperation; inside the transaction, the engine
raises DataError from put/delete when the key is invalid (leaving the
table unchanged), value undefined deletes, any other value puts. -/
def set {V : Type} (s : AreaState V) (key : Key) (value : Option V) :
    AreaState V × OpOutcome V :=
  performADatabaseOperation s (fun t =>
    if allowedAsAKey key then
      match value with
      | none => (storeDelete t key, OpOutcome.fulfilled none)
      | some v => (storePut t key v, OpOutcome.fulfilled none)
    else (t, OpOutcome.rejectedDataError))

/-- get (src/src/KVStorageArea.ts lines 88-119): reject with DataError
immediately on an invalid key, touching neither the cache nor the
engine; otherwise a readonly operation returning the stored value or
undefined. -/
def get {V : Type} (s : AreaState V) (key : Key) : AreaState V × OpOutcome V :=
  if allowedAsAKey key then
    performADatabaseOperation s (fun t => (t, OpOutcome.fulfilled (storeGet t key)))
  else (s, OpOutcome.rejectedDataError)

/-- delete (src/src/KVStorageArea.ts lines 126-160): reject with
DataError immediately on an invalid key, touching neither the cache nor
the engine; otherwise a readwrite operation deleting the entry. -/
def delete {V : Type} (s : AreaState V) (key : Key) : AreaState V × OpOutcome V :=
  if allowedAsAKey key then
    performADatabaseOperation s (fun t => (storeDelete t key, OpOutcome.fulfilled none))
  else (s, OpOutcome.rejectedDataError)

/-- Modelled from the spec: deletingTheDatabase destroys the database
named [[DatabaseName]]; the table is gone and one deletion is counted.
Referenced by clear but not part of the repository. -/
def deletingTheDatabase {V : Type} (s : AreaState V) : AreaState V :=
  { s with engine :=
      { s.engine with table := [], destroyCount := s.engine.destroyCount + 1 } }

/-- clear (src/src/KVStorageArea.ts lines 169-188) in the sequential
happy-path model (any cached open has settled fulfilled and the
deletion succeeds; the settlement-level behaviour, including the
.finally quirk on a rejected open, is `clearSettled`): if
[[DatabasePromise]] is non-null, set it to null and delete the database;
otherwise delete the database directly. -/
def clear {V : Type} (s : AreaState V) : AreaState V × OpOutcome V :=
  match s.databasePromise with
  | some _ =>
    (deletingTheDatabase { s with databasePromise := none }, OpOutcome.fulfilled none)
  | none => (deletingTheDatabase s, OpOutcome.fulfilled none)

/-- The backingStore getter (src/src/KVStorageArea.ts lines 195-202):
on first access build and cache the frozen descriptor from
[[DatabaseName]] and the fixed constants; afterwards return the cached
object. -/
def backingStore {V : Type} (s : AreaState V) : AreaState V × BackingStoreObj :=
  match s.backingStoreObject with
  | some b => (s, b)
  | none =>
    let b : BackingStoreObj := { database := s.databaseName, store := "store", version := 1 }
    ({ s with backingStoreObject := some b }, b)

end KVStorageArea

/-- One public operation on an area, for quantifying over every
sequence of calls. -/
inductive Op (V : Type) where
  | get (k : Key)
  | set (k : Key) (v : Option V)
  | del (k : Key)
  | clear
  | backingStore

/-- Apply one operation, keeping the state. -/
def applyOp {V : Type} (s : AreaState V) : Op V → AreaState V
  | Op.get k => (KVStorageArea.get s k).1
  | Op.set k v => (KVStorageArea.set s k v).1
  | Op.del k => (KVStorageArea.delete s k).1
  | Op.clear => (KVStorageArea.clear s).1
  | Op.backingStore => (KVStorageArea.backingStore s).1

/-- State of an area constructed with `name` after a sequence of
operations. -/
def runOps (V : Type) (name : String) (ops : List (Op V)) : AreaState V :=
  ops.foldl applyOp (KVStorageArea.construct V name)

/-- Slot invariant tied to the construction name: [[DatabaseName]] is
the fixed string and [[BackingStoreObject]] is either still null or the
descriptor built from that string. -/
def slotInv {V : Type} (name : String) (s : AreaState V) : Prop :=
  s.databaseName = some ("kv-storage:" ++ name) ∧
  (s.backingStoreObject = none ∨
    s.backingStoreObject =
      some { database := some ("kv-storage:" ++ name), store := "store", version := 1 })

/-! ## Helper lemmas -/

theorem foldl_settleOnce_some {ε : Type} (txErr : ε) (r : Except ε Unit)
    (evs : List TxnEvent) :
    evs.foldl (fun cell e => settleOnce cell (txnSettle txErr e)) (some r) = some r := by
  induction evs with
  | nil => rfl
  | cons e rest ih => rw [List.foldl_cons]; exact ih

namespace OpenModel

theorem inv_init : inv init := by
  constructor
  · intro j hj
    simp [init] at hj
  · simp [init]

theorem inv_step (s : St) (e : Ev) (h : inv s) : inv (step s e).1 := by
  obtain ⟨hall, hnd⟩ := h
  cases e with
  | arrive =>
    cases hc : s.cache with
    | some p =>
      have hs : (step s Ev.arrive).1 = s := by simp [step, hc]
      rw [hs]
      exact ⟨hall, hnd⟩
    | none =>
      have hp : s.pending = [] := by
        cases hp : s.pending with
        | nil => rfl
        | cons a t =>
          have := hall a (by simp [hp])
          rw [hc] at this
          exact absurd this (by simp)
      constructor
      · intro j hj
        simp [step, hc, hp] at hj ⊢
        simp [hj]
      · simp [step, hc, hp]
  | settleOk i =>
    by_cases hi : i ∈ s.pending
    · constructor
      · intro j hj
        simp only [step, if_pos hi] at hj ⊢
        exact hall j (List.mem_of_mem_erase hj)
      · simp only [step, if_pos hi]
        exact hnd.erase i
    · simpa [step, hi, inv] using ⟨hall, hnd⟩
  | settleFail i =>
    by_cases hi : i ∈ s.pending
    · have hc : s.cache = some i := hall i hi
      constructor
      · intro j hj
        simp only [step, if_pos hi] at hj
        exfalso
        have hj' : j ∈ s.pending := List.mem_of_mem_erase hj
        have hji : j = i := by
          have h1 := hall j hj'
          rw [hc] at h1
          exact (Option.some_inj.mp h1).symm
        subst hji
        exact ((List.Nodup.mem_erase_iff hnd).mp hj).1 rfl
      · simp only [step, if_pos hi]
        exact hnd.erase i
    · simpa [step, hi, inv] using ⟨hall, hnd⟩

theorem inv_foldl (evs : List Ev) (s : St) (h : inv s) :
    inv (evs.foldl (fun s e => (step s e).1) s) := by
  induction evs generalizing s with
  | nil => exact h
  | cons e rest ih => exact ih _ (inv_step s e h)

theorem inv_run (evs : List Ev) : inv (run evs) :=
  inv_foldl evs init inv_init

theorem pending_length_le_one (s : St) (h : inv s) : s.pending.length ≤ 1 := by
  obtain ⟨hall, hnd⟩ := h
  cases hp : s.pending with
  | nil => simp
  | cons a t =>
    cases ht : t with
    | nil => simp
    | cons b u =>
      exfalso
      have ha := hall a (by simp [hp])
      have hb := hall b (by simp [hp, ht])
      have hab : a = b := by
        rw [ha] at hb
        exact Option.some_inj.mp hb
      rw [hp, ht] at hnd
      rcases List.nodup_cons.mp hnd with ⟨hna, _⟩
      exact hna (by simp [hab])

end OpenModel

theorem perform_keeps_slots {V : Type} (s : AreaState V)
    (steps : List (Key × V) → List (Key × V) × OpOutcome V) :
    (performADatabaseOperation s steps).1.databaseName = s.databaseName ∧
    (performADatabaseOperation s steps).1.backingStoreObject = s.backingStoreObject := by
  by_cases hdb : s.databasePromise.isNone <;>
    simp [performADatabaseOperation, initializeTheDatabasePromise, hdb]

theorem applyOp_keeps_databaseName {V : Type} (s : AreaState V) (o : Op V) :
    (applyOp s o).databaseName = s.databaseName := by
  cases o with
  | get k =>
    by_cases hk : allowedAsAKey k <;>
      simp [applyOp, KVStorageArea.get, hk, (perform_keeps_slots s _).1]
  | set k v =>
    simp [applyOp, KVStorageArea.set, (perform_keeps_slots s _).1]
  | del k =>
    by_cases hk : allowedAsAKey k <;>
      simp [applyOp, KVStorageArea.delete, hk, (perform_keeps_slots s _).1]
  | clear =>
    cases hdb : s.databasePromise <;>
      simp [applyOp, KVStorageArea.clear, KVStorageArea.deletingTheDatabase, hdb]
  | backingStore =>
    cases hb : s.backingStoreObject <;>
      simp [applyOp, KVStorageArea.backingStore, hb]

theorem slotInv_applyOp {V : Type} (name : String) (s : AreaState V) (o : Op V)
    (h : slotInv name s) : slotInv name (applyOp s o) := by
  obtain ⟨h1, h2⟩ := h
  refine ⟨(applyOp_keeps_databaseName s o).trans h1, ?_⟩
  cases o with
  | get k =>
    by_cases hk : allowedAsAKey k <;>
      simpa [applyOp, KVStorageArea.get, hk, (perform_keeps_slots s _).2] using h2
  | set k v =>
    simpa [applyOp, KVStorageArea.set, (perform_keeps_slots s _).2] using h2
  | del k =>
    by_cases hk : allowedAsAKey k <;>
      simpa [applyOp, KVStorageArea.delete, hk, (perform_keeps_slots s _).2] using h2
  | clear =>
    cases hdb : s.databasePromise <;>
      simpa [applyOp, KVStorageArea.clear, KVStorageArea.deletingTheDatabase, hdb] using h2
  | backingStore =>
    rcases h2 with h2 | h2
    · right
      simp [applyOp, KVStorageArea.backingStore, h2, h1]
    · right
      simp [applyOp, KVStorageArea.backingStore, h2]

theorem slotInv_foldl {V : Type} (name : String) (ops : List (Op V)) (s : AreaState V)
    (h : slotInv name s) : slotInv name (ops.foldl applyOp s) := by
  induction ops generalizing s with
  | nil => exact h
  | cons o rest ih => exact ih _ (slotInv_applyOp name s o h)

theorem slotInv_runOps (V : Type) (name : String) (ops : List (Op V)) :
    slotInv name (runOps V name ops) :=
  slotInv_foldl name ops _ ⟨rfl, Or.inl rfl⟩

theorem storeGet_storePut {V : Type} (t : List (Key × V)) (k : Key) (v : V) :
    storeGet (storePut t k v) k = some v := by
  unfold storeGet storePut
  rw [List.find?_cons_of_pos _ (by simp)]
  rfl

/-! ## Claim theorems -/

/-- Claim C1: in every interleaving of get/set/delete arrivals with open
settlements, at most one open attempt is in flight at any time, and a
caller arriving while the open with id i is outstanding receives that
same shared promise, with the cache state unchanged (no second open is
started). -/
theorem performADatabaseOperation_single_open (evs : List OpenModel.Ev) :
    (OpenModel.run evs).pending.length ≤ 1 ∧
    ∀ i : Nat, (OpenModel.run evs).pending = [i] →
      (OpenModel.step (OpenModel.run evs) OpenModel.Ev.arrive).2 = some i ∧
      (OpenModel.step (OpenModel.run evs) OpenModel.Ev.arrive).1 = OpenModel.run evs := by
  have h := OpenModel.inv_run evs
  refine ⟨OpenModel.pending_length_le_one _ h, ?_⟩
  intro i hi
  have hc : (OpenModel.run evs).cache = some i := h.1 i (by simp [hi])
  exact ⟨by simp [OpenModel.step, hc], by simp [OpenModel.step, hc]⟩

/-- Witness for C1: after one arrival the open with id 0 is in flight;
a second arrival receives promise 0 and leaves the state unchanged. -/
theorem performADatabaseOperation_single_open_witness :
    (OpenModel.step (OpenModel.run [OpenModel.Ev.arrive]) OpenModel.Ev.arrive).2 = some 0 ∧
    (OpenModel.step (OpenModel.run [OpenModel.Ev.arrive]) OpenModel.Ev.arrive).1 =
      OpenModel.run [OpenModel.Ev.arrive] :=
  (performADatabaseOperation_single_open [OpenModel.Ev.arrive]).2 0 (by decide)

/-- Claim C2: when the handle cache holds an open future, clear issues
its actions in the order settle-wait, invalidate, destroy — the destroy
request comes after the open future has settled and after the cache has
been set to null — and the resulting cache is null. -/
theorem clear_waits_then_invalidates_then_destroys (ε : Type) (f d : Except ε Unit) :
    clearActionTrace (some f) =
      [ClearAction.waitSettle, ClearAction.invalidate, ClearAction.destroyStore] ∧
    (clearSettled (some f) d).1 = none :=
  ⟨rfl, rfl⟩

/-- Claim C3 (code bug): the source composes clear with .finally, so
with a REJECTED cached open future and a SUCCESSFUL destroy, clear still
rejects with the open failure, while the inline spec steps (react with
fulfillment and rejection handlers that both return the deletion result)
resolve; the remaining outcome combinations agree with the claim. -/
theorem clear_finally_keeps_open_rejection :
    clearSettled (some (Except.error "open failed")) (Except.ok ()) =
      (none, Except.error "open failed") ∧
    clearSettledSpec (some (Except.error "open failed")) (Except.ok ()) =
      (none, Except.ok ()) ∧
    clearSettled (ε := String) (some (Except.ok ())) (Except.ok ()) = (none, Except.ok ()) ∧
    clearSettled (some (Except.ok ())) (Except.error "destroy failed") =
      (none, Except.error "destroy failed") ∧
    clearSettled (ε := String) none (Except.ok ()) = (none, Except.ok ()) :=
  ⟨rfl, rfl, rfl, rfl, rfl⟩

/-- Claim C4 (code bug): on an invalid key, get and delete reject with
DataError leaving the fresh area untouched, but set — whose validity
check exists in the source only as a comment — initializes the database
promise, performs an open and creates a transaction before the engine
raises the DataError. -/
theorem set_skips_key_validation_bug :
    KVStorageArea.get (KVStorageArea.construct Nat "test") (Key.invalidKey 0) =
      (KVStorageArea.construct Nat "test", OpOutcome.rejectedDataError) ∧
    KVStorageArea.delete (KVStorageArea.construct Nat "test") (Key.invalidKey 0) =
      (KVStorageArea.construct Nat "test", OpOutcome.rejectedDataError) ∧
    (KVStorageArea.set (KVStorageArea.construct Nat "test") (Key.invalidKey 0) (some 1)).2 =
      OpOutcome.rejectedDataError ∧
    (KVStorageArea.set (KVStorageArea.construct Nat "test")
        (Key.invalidKey 0) (some 1)).1.databasePromise = some () ∧
    (KVStorageArea.set (KVStorageArea.construct Nat "test")
        (Key.invalidKey 0) (some 1)).1.engine.openCount = 1 ∧
    (KVStorageArea.set (KVStorageArea.construct Nat "test")
        (Key.invalidKey 0) (some 1)).1.engine.txnCount = 1 := by
  refine ⟨rfl, rfl, rfl, rfl, rfl, rfl⟩

/-- Claim C5: after clear, the cached database promise is null, and the
next set, get or delete performs a fresh open (the open counter
advances by one instead of a cached handle being reused). -/
theorem clear_resets_promise_next_op_fresh_open (V : Type) (s : AreaState V)
    (k : Key) (v : Option V) (hk : allowedAsAKey k = true) :
    (KVStorageArea.clear s).1.databasePromise = none ∧
    (KVStorageArea.set (KVStorageArea.clear s).1 k v).1.engine.openCount =
      (KVStorageArea.clear s).1.engine.openCount + 1 ∧
    (KVStorageArea.get (KVStorageArea.clear s).1 k).1.engine.openCount =
      (KVStorageArea.clear s).1.engine.openCount + 1 ∧
    (KVStorageArea.delete (KVStorageArea.clear s).1 k).1.engine.openCount =
      (KVStorageArea.clear s).1.engine.openCount + 1 := by
  have h1 : (KVStorageArea.clear s).1.databasePromise = none := by
    cases hdb : s.databasePromise <;>
      simp [KVStorageArea.clear, KVStorageArea.deletingTheDatabase, hdb]
  refine ⟨h1, ?_, ?_, ?_⟩ <;>
    simp [KVStorageArea.set, KVStorageArea.get, KVStorageArea.delete, hk,
          performADatabaseOperation, initializeTheDatabasePromise, h1]

/-- Witness for C5 at a concrete area, key and value. -/
theorem clear_resets_promise_next_op_fresh_open_witness :
    (KVStorageArea.clear (KVStorageArea.construct Nat "w")).1.databasePromise = none ∧
    (KVStorageArea.set (KVStorageArea.clear (KVStorageArea.construct Nat "w")).1
        (Key.validKey 0) (some 5)).1.engine.openCount =
      (KVStorageArea.clear (KVStorageArea.construct Nat "w")).1.engine.openCount + 1 ∧
    (KVStorageArea.get (KVStorageArea.clear (KVStorageArea.construct Nat "w")).1
        (Key.validKey 0)).1.engine.openCount =
      (KVStorageArea.clear (KVStorageArea.construct Nat "w")).1.engine.openCount + 1 ∧
    (KVStorageArea.delete (KVStorageArea.clear (KVStorageArea.construct Nat "w")).1
        (Key.validKey 0)).1.engine.openCount =
      (KVStorageArea.clear (KVStorageArea.construct Nat "w")).1.engine.openCount + 1 :=
  clear_resets_promise_next_op_fresh_open Nat
    (KVStorageArea.construct Nat "w") (Key.validKey 0) (some 5) rfl

/-- Claim C6 (code bug): delete on an invalid key rejects with
DataError leaving a fresh area untouched, but set with the absent
sentinel on the same invalid key mutates the area (it opens the
database), so the two are not observationally identical; on a valid key
the two write paths coincide exactly. -/
theorem set_absent_differs_from_delete_on_invalid_key :
    KVStorageArea.delete (KVStorageArea.construct Nat "test") (Key.invalidKey 1) =
      (KVStorageArea.construct Nat "test", OpOutcome.rejectedDataError) ∧
    (KVStorageArea.set (KVStorageArea.construct Nat "test") (Key.invalidKey 1) none).1 ≠
      KVStorageArea.construct Nat "test" ∧
    (KVStorageArea.set (KVStorageArea.construct Nat "test")
        (Key.invalidKey 1) none).1.engine.openCount = 1 ∧
    KVStorageArea.set (KVStorageArea.construct Nat "test") (Key.validKey 1) none =
      KVStorageArea.delete (KVStorageArea.construct Nat "test") (Key.validKey 1) := by
  refine ⟨rfl, ?_, rfl, rfl⟩
  decide

/-- Claim C7: the write-path listeners settle the returned promise
exactly once, determined by the first terminal event of the
transaction: complete resolves with undefined, error and abort both
reject with the transaction error. -/
theorem write_txn_settles_once_by_first_event (ε : Type) (txErr : ε)
    (e : TxnEvent) (rest : List TxnEvent) :
    runTxnListenerEvents txErr (e :: rest) = some (txnSettle txErr e) ∧
    txnSettle txErr TxnEvent.complete = Except.ok () ∧
    txnSettle txErr TxnEvent.error = Except.error txErr ∧
    txnSettle txErr TxnEvent.abort = txnSettle txErr TxnEvent.error := by
  refine ⟨?_, rfl, rfl, rfl⟩
  show (e :: rest).foldl (fun cell ev => settleOnce cell (txnSettle txErr ev)) none =
    some (txnSettle txErr e)
  rw [List.foldl_cons]
  exact foldl_settleOnce_some txErr (txnSettle txErr e) rest

/-- Claim C8: for a valid key, set then get (with no write in between)
returns exactly the stored value, and get on a key with no entry
returns the absent sentinel undefined. -/
theorem set_then_get_round_trip (V : Type) (s : AreaState V) (k : Key) (v : V)
    (hk : allowedAsAKey k = true) :
    (KVStorageArea.get (KVStorageArea.set s k (some v)).1 k).2 =
      OpOutcome.fulfilled (some v) ∧
    (storeGet s.engine.table k = none →
      (KVStorageArea.get s k).2 = OpOutcome.fulfilled none) := by
  constructor
  · by_cases hdb : s.databasePromise.isNone <;>
      simp [KVStorageArea.get, KVStorageArea.set, performADatabaseOperation,
            initializeTheDatabasePromise, hk, hdb, storeGet_storePut]
  · intro hnone
    by_cases hdb : s.databasePromise.isNone <;>
      simp [KVStorageArea.get, performADatabaseOperation,
            initializeTheDatabasePromise, hk, hdb, hnone]

/-- Witness for C8: on a fresh area, set then get of key 0 returns the
stored value 7, and get of the never-written key 1 returns undefined. -/
theorem set_then_get_round_trip_witness :
    (KVStorageArea.get
        (KVStorageArea.set (KVStorageArea.construct Nat "w8") (Key.validKey 0) (some 7)).1
        (Key.validKey 0)).2 = OpOutcome.fulfilled (some 7) ∧
    (KVStorageArea.get (KVStorageArea.construct Nat "w8") (Key.validKey 1)).2 =
      OpOutcome.fulfilled none :=
  ⟨(set_then_get_round_trip Nat (KVStorageArea.construct Nat "w8")
      (Key.validKey 0) 7 rfl).1,
   (set_then_get_round_trip Nat (KVStorageArea.construct Nat "w8")
      (Key.validKey 1) 7 rfl).2 rfl⟩

/-- Claim C9: for every area and every sequence of operations on it
(clear included), the backingStore getter returns the descriptor built
from the fixed name, it leaves the cached database promise untouched,
and after a first access the state is fixed (the descriptor is computed
at most once). -/
theorem backingStore_computed_once_and_stable (V : Type) (name : String)
    (ops : List (Op V)) :
    (KVStorageArea.backingStore (runOps V name ops)).2 =
      { database := some ("kv-storage:" ++ name), store := "store", version := 1 } ∧
    (KVStorageArea.backingStore (runOps V name ops)).1.databasePromise =
      (runOps V name ops).databasePromise ∧
    (KVStorageArea.backingStore
        (KVStorageArea.backingStore (runOps V name ops)).1).1 =
      (KVStorageArea.backingStore (runOps V name ops)).1 := by
  obtain ⟨h1, h2⟩ := slotInv_runOps V name ops
  rcases h2 with h2 | h2 <;>
    simp [KVStorageArea.backingStore, h2, h1]

/-- Claim C10: the assertion at the top of performADatabaseOperation —
[[DatabaseName]] is a string and not null — holds in every state an
area constructed through the KVStorageArea constructor can reach, since
the constructor sets the name and no operation changes it. -/
theorem databaseName_assertion_always_holds (V : Type) (name : String)
    (ops : List (Op V)) :
    databaseNameAssertion (runOps V name ops) = true ∧
    (runOps V name ops).databaseName = some ("kv-storage:" ++ name) := by
  have h := (slotInv_runOps V name ops).1
  exact ⟨by simp [databaseNameAssertion, h], h⟩

end KVStorage
